import Mathlib

/-!
Verification development for the `venv-manager` repository
(`src/venv-manager.py`): a shallow embedding of its scanning,
classification, trimming, removal and reporting logic, together with
theorems settling the specification's testable properties.

The filesystem is modelled as a tree of named entries (regular files
carrying a byte size and a modification timestamp in seconds, and
directories carrying children).  `pathlib.Path.rglob('*')` becomes an
enumeration of all entries strictly beneath a directory together with
their relative path components.  Machine integers are `Int`/`Nat`; the
megabyte conversion performed by `get_dir_size` is modelled exactly in
`ℚ` (the Python division is by the power of two `1024 * 1024`).
-/

set_option autoImplicit false

namespace VenvManager

mutual
/-- A filesystem entry: a regular file (name, byte size, mtime in seconds
since the epoch) or a directory with children. -/
inductive FSEntry : Type where
  | file (name : String) (size : Nat) (mtime : Int)
  | dir (name : String) (children : FSList)

/-- A list of filesystem entries (the children of a directory). -/
inductive FSList : Type where
  | nil
  | cons (head : FSEntry) (tail : FSList)
end

/-- Name of an entry. -/
def entryName : FSEntry → String
  | .file n _ _ => n
  | .dir n _ => n

/-- Model of `path.is_dir()`. -/
def isDirE : FSEntry → Bool
  | .file _ _ _ => false
  | .dir _ _ => true

/-- Byte size of an entry when it is a regular file (`f.is_file()` guard of
`get_dir_size`). -/
def fileSize? : FSEntry → Option Nat
  | .file _ s _ => some s
  | .dir _ _ => none

/-- Modification time of an entry when it is a regular file (`f.is_file()`
guard of `get_dir_age_days`). -/
def fileMtime? : FSEntry → Option Int
  | .file _ _ t => some t
  | .dir _ _ => none

mutual
/-- Model of `path.rglob('*')`: every entry strictly beneath a directory, paired with
its path components relative to the scan root. -/
def rglobE (pre : List String) : FSEntry → List (List String × FSEntry)
  | .file _ _ _ => []
  | .dir _ cs => rglobL pre cs

/-- Mapping of `rglobE` over every entry of a child list. -/
def rglobL (pre : List String) : FSList → List (List String × FSEntry)
  | .nil => []
  | .cons c cs =>
    (pre ++ [entryName c], c) :: (rglobE (pre ++ [entryName c]) c ++ rglobL pre cs)
end

mutual
/-- Model of `(path / rel).exists()` for a relative path given as components:
`existsPathE e p` holds when the path `p` denotes an entry (file or
directory) beneath `e`.  The empty path denotes `e` itself. -/
def existsPathE : FSEntry → List String → Bool
  | _, [] => true
  | .file _ _ _, _ :: _ => false
  | .dir _ cs, n :: rest => existsPathL cs n rest

/-- Lifting of `existsPathE` over a child list: does some child named `n` contain the
remaining path? -/
def existsPathL : FSList → String → List String → Bool
  | .nil, _, _ => false
  | .cons c cs, n, rest =>
    (entryName c == n && existsPathE c rest) || existsPathL cs n rest
end

/-- Python's `str.split` on the path separator `'/'`, over the character
list of a string.  Splitting the empty string yields `[""]`, exactly as in
Python. -/
def splitSepChars : List Char → List String
  | [] => [""]
  | c :: cs =>
    if c = '/' then "" :: splitSepChars cs
    else
      match splitSepChars cs with
      | [] => [String.mk [c]]
      | p :: ps => String.mk (c :: p.data) :: ps

/-- Model of `path_str.split(os.sep)` (with the Unix separator). -/
def pySplit (s : String) : List String :=
  splitSepChars s.data

/-- Model of `os.sep.join(parts)` (with the Unix separator). -/
def pyJoin : List String → String
  | [] => ""
  | [p] => p
  | p :: q :: ps => p ++ "/" ++ pyJoin (q :: ps)

/-- The four `venv_markers` of `VenvScanner.is_virtualenv`. -/
def venv_markers : List String :=
  ["pyvenv.cfg", "bin/python", "Scripts/python.exe", "Lib/site-packages"]

/-- Model of `VenvScanner.is_virtualenv`: `any((path / marker).exists() for marker in
venv_markers)`.  `Path` division splits each marker on the separator. -/
def is_virtualenv (e : FSEntry) : Bool :=
  venv_markers.any fun m => existsPathE e (pySplit m)

/-- The `total_bytes` computed inside `VenvScanner.get_dir_size`:
`sum(f.stat().st_size for f in path.rglob('*') if f.is_file())`. -/
def get_dir_size_bytes (e : FSEntry) : Nat :=
  ((rglobE [] e).filterMap fun pe => fileSize? pe.2).sum

/-- Model of `VenvScanner.get_dir_size`: the byte total divided by `1024 * 1024`,
as the exact rational `total_bytes / (1024 * 1024)` (see
`get_dir_size_eq_div`). -/
def get_dir_size (e : FSEntry) : ℚ :=
  mkRat (get_dir_size_bytes e) (1024 * 1024)

/-- The modification times inspected by `get_dir_age_days`:
`f.stat().st_mtime for f in path.rglob('*') if f.is_file()`. -/
def ageMtimes (e : FSEntry) : List Int :=
  (rglobE [] e).filterMap fun pe => fileMtime? pe.2

/-- Model of `VenvScanner.get_dir_age_days`: `max` of the mtimes (the `ValueError`
on an empty sequence is caught and yields 0), then the `.days` of the
timedelta `now - most_recent`, which floors the quotient by 86400. -/
def get_dir_age_days (now : Int) (e : FSEntry) : Int :=
  match ageMtimes e with
  | [] => 0
  | t :: ts => Int.fdiv (now - ts.foldl max t) 86400

/-- The `for part in path_parts[1:-2]` loop of `trim_path`: greedily extend
`start` with the next part while the extension stays within
`available_start`, stopping at the first overflow (`break`). -/
def packStart (avail : Int) : String → List String → String
  | start, [] => start
  | start, part :: rest =>
    if ((start ++ "/" ++ part).length : Int) ≤ avail then
      packStart avail (start ++ "/" ++ part) rest
    else start

/-- The `end_parts = path_parts[-2:]` of `trim_path`: the final two path
segments (or the whole list when it has fewer). -/
def trimEndParts (s : String) : List String :=
  (pySplit s).drop ((pySplit s).length - 2)

/-- The `available_start = max_length - end_len - 5` budget of
`trim_path`, where `end_len` is the length of the joined final
segments. -/
def trimAvail (s : String) (max_length : Nat) : Int :=
  (max_length : Int) - ((pyJoin (trimEndParts s)).length : Int) - 5

/-- Model of `VenvScanner.trim_path`: return the path unchanged when it fits in
`max_length`; otherwise keep the last two segments, pack leading segments
into the `available_start` budget, and fall back to `.../last` when that
budget is non-positive. -/
def trim_path (path_str : String) (max_length : Nat) : String :=
  if path_str.length ≤ max_length then path_str
  else
    let path_parts := pySplit path_str
    let end_parts := trimEndParts path_str
    let available_start := trimAvail path_str max_length
    if available_start ≤ 0 then
      "..." ++ "/" ++ end_parts.getLastD ""
    else
      let mid := (path_parts.drop 1).take (path_parts.length - 3)
      packStart available_start (path_parts.headD "") mid
        ++ "/" ++ "..." ++ "/" ++ pyJoin end_parts

/-- The environment of one `get_venv_packages` probe: whether the resolved
interpreter path exists on disk (`python_path.exists()` after the
symlink resolution of `_get_python_path`), the outcome of the
`subprocess.run(..., check=True)` call (`error` covers both a launch
failure and a non-zero exit raising `CalledProcessError`; `ok` carries the
captured stdout), and the combined `json.loads` plus name/version
extraction of the output (`none` covers `JSONDecodeError` and any other
exception raised while decoding). -/
structure ProbeWorld where
  pythonExists : Bool
  runOutcome : Except String String
  parseOutput : String → Option (List (String × String))

/-- Model of `VenvScanner.get_venv_packages`, instrumented with a flag recording
whether the subprocess was launched.  The `try/except` of the source
converts every probe failure into `None`. -/
def get_venv_packagesI (w : ProbeWorld) : Option (List (String × String)) × Bool :=
  if !w.pythonExists then (none, false)
  else
    match w.runOutcome with
    | .error _ => (none, true)
    | .ok out =>
      match w.parseOutput out with
      | none => (none, true)
      | some pkgs => (some pkgs, true)

/-- Model of `VenvScanner.get_venv_packages`: the package list, or `none` when the
environment is broken. -/
def get_venv_packages (w : ProbeWorld) : Option (List (String × String)) :=
  (get_venv_packagesI w).1

/-- The `VirtualEnv` dataclass: path (components relative to the scan
root), size in MB, age in days, broken flag, and the optional package
list. -/
structure VirtualEnv where
  path : List String
  size_mb : ℚ
  age_days : Int
  is_broken : Bool
  packages : Option (List (String × String))
deriving DecidableEq

/-- The age filter of `scan_virtualenvs`:
`older_than_days is None or age_days > older_than_days`. -/
def olderKeep : Option Int → Int → Bool
  | none, _ => true
  | some d, a => decide (d < a)

/-- Construction of one `VirtualEnv` record inside `scan_virtualenvs`:
the probe result becomes `packages`, and `is_broken` is `packages is
None`. -/
def mkVenvRecord (probe : List String → Option (List (String × String)))
    (now : Int) (p : List String) (e : FSEntry) : VirtualEnv :=
  let packages := probe p
  ⟨p, get_dir_size e, get_dir_age_days now e, packages.isNone, packages⟩

/-- The `for path in dirs_to_scan` loop of `scan_virtualenvs` over the
`rglob` enumeration, instrumented with the list of paths the health probe
is invoked on.  A directory accepted by `is_virtualenv` is recorded only
when the age filter keeps it, and only then is the probe consulted. -/
def scanList (now : Int) (probe : List String → Option (List (String × String)))
    (older : Option Int) :
    List (List String × FSEntry) → List VirtualEnv × List (List String)
  | [] => ([], [])
  | (p, e) :: rest =>
    let acc := scanList now probe older rest
    if isDirE e && is_virtualenv e then
      if olderKeep older (get_dir_age_days now e) then
        (mkVenvRecord probe now p e :: acc.1, p :: acc.2)
      else acc
    else acc

/-- Model of `VenvScanner.scan_virtualenvs`, instrumented with the probed paths. -/
def scan_virtualenvsI (now : Int)
    (probe : List String → Option (List (String × String)))
    (root : FSEntry) (older : Option Int) :
    List VirtualEnv × List (List String) :=
  scanList now probe older (rglobE [] root)

/-- Model of `VenvScanner.scan_virtualenvs`: the list of discovered environment
records. -/
def scan_virtualenvs (now : Int)
    (probe : List String → Option (List (String × String)))
    (root : FSEntry) (older : Option Int) : List VirtualEnv :=
  (scan_virtualenvsI now probe root older).1

mutual
/-- Is there a directory at relative path `p` beneath `e`?  This is the
condition under which `shutil.rmtree` succeeds. -/
def isDirAtE : FSEntry → List String → Bool
  | .dir _ _, [] => true
  | .file _ _ _, [] => false
  | .file _ _ _, _ :: _ => false
  | .dir _ cs, n :: rest => isDirAtL cs n rest

/-- Lifting of `isDirAtE` over a child list. -/
def isDirAtL : FSList → String → List String → Bool
  | .nil, _, _ => false
  | .cons c cs, n, rest => (entryName c == n && isDirAtE c rest) || isDirAtL cs n rest
end

mutual
/-- Deletion of the subtree at relative path `p` beneath `e` (the effect
of a successful `shutil.rmtree`). -/
def rmtreeE : FSEntry → List String → FSEntry
  | e, [] => e
  | .file m s t, _ :: _ => .file m s t
  | .dir m ds, n :: rest => .dir m (rmtreeL ds n rest)

/-- Lifting of `rmtreeE` over a child list: children matching the head component are
removed (last component) or pruned recursively. -/
def rmtreeL : FSList → String → List String → FSList
  | .nil, _, _ => .nil
  | .cons c cs, n, rest =>
    match rest with
    | [] =>
      if entryName c == n then rmtreeL cs n []
      else .cons c (rmtreeL cs n [])
    | r :: rs =>
      if entryName c == n then .cons (rmtreeE c (r :: rs)) (rmtreeL cs n (r :: rs))
      else .cons c (rmtreeL cs n (r :: rs))
end

/-- Model of `VenvScanner.remove_virtualenv` acting on the modelled filesystem
rooted at `root`: `shutil.rmtree` succeeds exactly when the path names an
existing directory, and any exception (`FileNotFoundError`,
`NotADirectoryError`, permission errors) is caught and reported as
`False` with the filesystem unchanged. -/
def remove_virtualenv (root : FSEntry) (p : List String) : FSEntry × Bool :=
  if isDirAtE root p then (rmtreeE root p, true) else (root, false)

/-- The command-line arguments consumed by `process_virtualenvs`
(`verbose` only affects progress display and is omitted). -/
structure Args where
  list_packages : Bool
  older_than : Option Int
  remove : Bool
  remove_broken : Bool

/-- Python truthiness of the optional `--older-than` value: `None` and `0`
are falsy. -/
def truthyOpt : Option Int → Bool
  | none => false
  | some d => d != 0

/-- One console message of `process_virtualenvs` / `display_venv_info`. -/
inductive OutMsg where
  | noVenvsFound
  | venvInfo (path : List String) (size_mb : ℚ) (age_days : Int) (broken : Bool)
  | removeAttempt (path : List String) (ok : Bool)
  | totals (count : Nat) (broken : Nat) (size_mb : ℚ)
  | dryRunNote
deriving DecidableEq

/-- Model of `VenvManager.process_virtualenvs`: scan, report each environment,
remove the broken ones when `--remove-broken` is given (threading the
filesystem), print the summary, and print the dry-run note when
`args.older_than and not args.remove` is truthy.  Returns the messages,
the final filesystem, and the paths handed to the Remover. -/
def process_virtualenvs (now : Int)
    (probe : List String → Option (List (String × String)))
    (root : FSEntry) (args : Args) :
    List OutMsg × FSEntry × List (List String) :=
  let venvs := scan_virtualenvs now probe root args.older_than
  if venvs.isEmpty then ([OutMsg.noVenvsFound], root, [])
  else
    let broken_count := (venvs.filter fun v => v.is_broken).length
    let total_size := (venvs.map fun v => v.size_mb).sum
    let step := fun (acc : List OutMsg × FSEntry × List (List String)) (v : VirtualEnv) =>
      let msgs := acc.1 ++ [OutMsg.venvInfo v.path v.size_mb v.age_days v.is_broken]
      if v.is_broken && args.remove_broken then
        let r := remove_virtualenv acc.2.1 v.path
        (msgs ++ [OutMsg.removeAttempt v.path r.2], r.1, acc.2.2 ++ [v.path])
      else (msgs, acc.2.1, acc.2.2)
    let fin := venvs.foldl step ([], root, [])
    (fin.1 ++ [OutMsg.totals venvs.length broken_count total_size]
        ++ (if truthyOpt args.older_than && !args.remove then [OutMsg.dryRunNote] else []),
      fin.2.1, fin.2.2)

mutual
/-- Modelled from the spec's words for comparison with `get_dir_size`:
"total size of all regular files under the path", as a direct recursive
sum over the tree, "regardless of nesting depth". -/
def totalFileBytesSpec : FSEntry → Nat
  | .file _ s _ => s
  | .dir _ cs => totalFileBytesSpecL cs

/-- Sum of `totalFileBytesSpec` over a child list. -/
def totalFileBytesSpecL : FSList → Nat
  | .nil => 0
  | .cons c cs => totalFileBytesSpec c + totalFileBytesSpecL cs
end

deriving instance DecidableEq for FSEntry

/-- A sample healthy-looking virtual environment: a directory with a
`pyvenv.cfg` file (size 0 bytes, mtime 0). -/
def venvW : FSEntry := .dir "venv" (.cons (.file "pyvenv.cfg" 0 0) .nil)

/-- A sample scan root containing `venvW`. -/
def rootW : FSEntry := .dir "root" (.cons venvW .nil)

end VenvManager

namespace VenvManager

/-- Lemma: `get_dir_size` is the exact rational division of the byte total by
`1024 * 1024`, as in the source's `total_bytes / (1024 * 1024)`. -/
theorem get_dir_size_eq_div (e : FSEntry) :
    get_dir_size e = (get_dir_size_bytes e : ℚ) / (1024 * 1024) := by
  rw [get_dir_size, Rat.mkRat_eq_divInt, Rat.divInt_eq_div]
  push_cast
  ring

/-- Clearing the megabyte denominator recovers the byte total exactly. -/
theorem mkRat_mb_cancel (b : Nat) : mkRat b (1024 * 1024) * (1024 * 1024) = (b : ℚ) := by
  rw [Rat.mkRat_eq_divInt, Rat.divInt_eq_div]
  push_cast
  field_simp
  norm_num

mutual
/-- The flat `rglob` file-size sum of an entry, plus the entry's own size
when it is a file, is the recursive total. -/
theorem sum_rglobE (pre : List String) (e : FSEntry) :
    ((rglobE pre e).filterMap fun pe => fileSize? pe.2).sum + (fileSize? e).getD 0
      = totalFileBytesSpec e := by
  cases e with
  | file m s t => simp [rglobE, fileSize?, totalFileBytesSpec]
  | dir m ds =>
    simpa [rglobE, fileSize?, totalFileBytesSpec] using sum_rglobL pre ds

/-- The flat `rglob` file-size sum over a child list is the recursive
total of the list. -/
theorem sum_rglobL (pre : List String) (cs : FSList) :
    ((rglobL pre cs).filterMap fun pe => fileSize? pe.2).sum = totalFileBytesSpecL cs := by
  cases cs with
  | nil => simp [rglobL, totalFileBytesSpecL]
  | cons c cs' =>
    have h1 := sum_rglobE (pre ++ [entryName c]) c
    have h2 := sum_rglobL pre cs'
    cases hfs : fileSize? c with
    | none =>
      rw [hfs] at h1
      simp only [rglobL, List.filterMap_cons, hfs, List.filterMap_append,
        List.sum_append, totalFileBytesSpecL]
      simp only [Option.getD_none, Nat.add_zero] at h1
      omega
    | some s =>
      rw [hfs] at h1
      simp only [rglobL, List.filterMap_cons, hfs, List.filterMap_append,
        List.sum_append, List.sum_cons, totalFileBytesSpecL]
      simp only [Option.getD_some] at h1
      omega
end

/-- Claim C4 (amended): the size recorded at discovery is in megabytes;
multiplied back by `1024 * 1024` it equals the exact sum of the byte
lengths of all regular files strictly beneath the environment directory,
regardless of nesting depth. -/
theorem get_dir_size_exact_sum (n : String) (cs : FSList) :
    get_dir_size (FSEntry.dir n cs) * (1024 * 1024)
      = (totalFileBytesSpec (FSEntry.dir n cs) : ℚ) := by
  have hb : get_dir_size_bytes (FSEntry.dir n cs) = totalFileBytesSpec (FSEntry.dir n cs) := by
    have h := sum_rglobL [] cs
    simp [get_dir_size_bytes, rglobE, totalFileBytesSpec, h]
  rw [get_dir_size, hb, mkRat_mb_cancel]

/-- Claim C4 (counterexample to the claim as stated): for a directory
holding a single `1048576`-byte file the recorded size is `1` (MB), not
the byte sum `1048576`. -/
theorem size_units_counterexample :
    get_dir_size (FSEntry.dir "v" (.cons (.file "f" 1048576 0) .nil)) = 1
  ∧ totalFileBytesSpec (FSEntry.dir "v" (.cons (.file "f" 1048576 0) .nil)) = 1048576
  ∧ (1 : ℚ) ≠ (1048576 : ℚ) := by decide

/-- Claim C6: a probe whose resolved interpreter path does not exist
returns `none` without launching the subprocess, and a probe whose
subprocess launch fails or exits non-zero, or whose output does not parse,
returns `none` instead of raising. -/
theorem get_venv_packages_failure_absent (w : ProbeWorld) :
    (w.pythonExists = false → get_venv_packagesI w = (none, false))
  ∧ (∀ msg, w.runOutcome = Except.error msg → get_venv_packages w = none)
  ∧ (∀ out, w.runOutcome = Except.ok out → w.parseOutput out = none →
      get_venv_packages w = none) := by
  refine ⟨fun h => ?_, fun msg h => ?_, fun out h hp => ?_⟩
  · simp [get_venv_packagesI, h]
  · by_cases hex : w.pythonExists <;>
      simp [get_venv_packages, get_venv_packagesI, hex, h]
  · by_cases hex : w.pythonExists <;>
      simp [get_venv_packages, get_venv_packagesI, hex, h, hp]

/-- Claim C6 witness: concrete probe environments for the three failure
shapes. -/
theorem get_venv_packages_failure_absent_witness :
    get_venv_packagesI ⟨false, Except.error "no interpreter", fun _ => none⟩ = (none, false)
  ∧ get_venv_packages ⟨true, Except.error "non-zero exit", fun _ => none⟩ = none
  ∧ get_venv_packages ⟨true, Except.ok "not json", fun _ => none⟩ = none :=
  ⟨(get_venv_packages_failure_absent _).1 rfl,
   (get_venv_packages_failure_absent _).2.1 "non-zero exit" rfl,
   (get_venv_packages_failure_absent _).2.2 "not json" rfl rfl⟩

/-- Claim C7: `is_virtualenv` accepts a directory exactly when at least
one of the four markers (`pyvenv.cfg`, `bin/python`, `Scripts/python.exe`,
`Lib/site-packages`) exists beneath it. -/
theorem is_virtualenv_iff_markers (e : FSEntry) :
    is_virtualenv e = true ↔
      (existsPathE e ["pyvenv.cfg"] = true ∨ existsPathE e ["bin", "python"] = true
        ∨ existsPathE e ["Scripts", "python.exe"] = true
        ∨ existsPathE e ["Lib", "site-packages"] = true) := by
  have h1 : pySplit "pyvenv.cfg" = ["pyvenv.cfg"] := by decide
  have h2 : pySplit "bin/python" = ["bin", "python"] := by decide
  have h3 : pySplit "Scripts/python.exe" = ["Scripts", "python.exe"] := by decide
  have h4 : pySplit "Lib/site-packages" = ["Lib", "site-packages"] := by decide
  simp [is_virtualenv, venv_markers, h1, h2, h3, h4, List.any_cons, List.any_nil,
    Bool.or_eq_true, or_assoc]

/-- Claim C8: when the newest regular file beneath the directory was
modified exactly `N` days (in seconds) before `now`, the age is `N`; with
no regular files beneath it, the age is `0`. -/
theorem get_dir_age_days_spec (now : Int) (e : FSEntry) :
    (ageMtimes e = [] → get_dir_age_days now e = 0)
  ∧ (∀ (N t : Int) (ts : List Int), ageMtimes e = t :: ts →
      now - ts.foldl max t = N * 86400 → get_dir_age_days now e = N) := by
  constructor
  · intro h
    simp [get_dir_age_days, h]
  · intro N t ts h hN
    simp only [get_dir_age_days, h]
    rw [hN]
    exact Int.mul_fdiv_cancel N (by norm_num)

/-- Claim C8 witness: a directory whose only file is 2 days old. -/
theorem get_dir_age_days_spec_witness : get_dir_age_days (2 * 86400) venvW = 2 :=
  (get_dir_age_days_spec (2 * 86400) venvW).2 2 0 [] (by decide) (by decide)

mutual
/-- A path naming a directory beneath an entry in particular exists
beneath it. -/
theorem isDirAt_existsE (e : FSEntry) (p : List String) (h : isDirAtE e p = true) :
    existsPathE e p = true := by
  cases e with
  | file m s t =>
    cases p with
    | nil => simp [existsPathE]
    | cons n rest => simp [isDirAtE] at h
  | dir m ds =>
    cases p with
    | nil => simp [existsPathE]
    | cons n rest =>
      simp only [isDirAtE] at h
      simpa [existsPathE] using isDirAt_existsL ds n rest h

/-- Lifting of `isDirAt_existsE` over a child list. -/
theorem isDirAt_existsL (cs : FSList) (n : String) (rest : List String)
    (h : isDirAtL cs n rest = true) : existsPathL cs n rest = true := by
  cases cs with
  | nil => simp [isDirAtL] at h
  | cons c cs' =>
    simp only [isDirAtL, Bool.or_eq_true, Bool.and_eq_true] at h
    rcases h with ⟨hn, hd⟩ | h
    · simp [existsPathL, hn, isDirAt_existsE c rest hd]
    · simp [existsPathL, isDirAt_existsL cs' n rest h]
end

mutual
/-- After `rmtreeE` deletes the subtree at a non-empty path, that path no
longer exists. -/
theorem exists_rmtreeE (e : FSEntry) (n : String) (rest : List String) :
    existsPathE (rmtreeE e (n :: rest)) (n :: rest) = false := by
  cases e with
  | file m s t => simp [rmtreeE, existsPathE]
  | dir m ds => simpa [rmtreeE, existsPathE] using exists_rmtreeL ds n rest

/-- Lifting of `exists_rmtreeE` over a child list. -/
theorem exists_rmtreeL (cs : FSList) (n : String) (rest : List String) :
    existsPathL (rmtreeL cs n rest) n rest = false := by
  cases cs with
  | nil => simp [rmtreeL, existsPathL]
  | cons c cs' =>
    cases rest with
    | nil =>
      by_cases hn : entryName c == n
      · simpa [rmtreeL, hn] using exists_rmtreeL cs' n []
      · simp [rmtreeL, hn, existsPathL, exists_rmtreeL cs' n []]
    | cons r rs =>
      by_cases hn : entryName c == n
      · simp [rmtreeL, hn, existsPathL, exists_rmtreeE c r rs,
          exists_rmtreeL cs' n (r :: rs)]
      · simp [rmtreeL, hn, existsPathL, exists_rmtreeL cs' n (r :: rs)]
end

/-- Claim C9: removing an existing directory tree reports success and
leaves the path nonexistent; removing a path that does not exist reports
failure with the filesystem unchanged and without raising. -/
theorem remove_virtualenv_spec (root : FSEntry) (p : List String) (hp : p ≠ []) :
    (isDirAtE root p = true →
      (remove_virtualenv root p).2 = true
        ∧ existsPathE (remove_virtualenv root p).1 p = false)
  ∧ (existsPathE root p = false → remove_virtualenv root p = (root, false)) := by
  constructor
  · intro h
    obtain ⟨n, rest, rfl⟩ : ∃ n rest, p = n :: rest := by
      cases p with
      | nil => exact absurd rfl hp
      | cons a b => exact ⟨a, b, rfl⟩
    exact ⟨by simp [remove_virtualenv, h], by simp [remove_virtualenv, h, exists_rmtreeE]⟩
  · intro h
    have hd : isDirAtE root p = false := by
      cases hc : isDirAtE root p with
      | false => rfl
      | true =>
        rw [isDirAt_existsE root p hc] at h
        simp at h
    simp [remove_virtualenv, hd]

/-- Claim C9 witness: removing the sample environment from the sample
root. -/
theorem remove_virtualenv_spec_witness :
    (remove_virtualenv rootW ["venv"]).2 = true
      ∧ existsPathE (remove_virtualenv rootW ["venv"]).1 ["venv"] = false :=
  (remove_virtualenv_spec rootW ["venv"] (by decide)).1 (by decide)

/-- The probe is consulted exactly on the paths of the records the scan
loop keeps. -/
theorem scanList_probed (now : Int)
    (probe : List String → Option (List (String × String)))
    (older : Option Int) (l : List (List String × FSEntry)) :
    (scanList now probe older l).2 = (scanList now probe older l).1.map (fun v => v.path) := by
  induction l with
  | nil => simp [scanList]
  | cons pe rest ih =>
    obtain ⟨p, e⟩ := pe
    simp only [scanList]
    by_cases h1 : (isDirE e && is_virtualenv e) = true
    · by_cases h2 : olderKeep older (get_dir_age_days now e) = true
      · simp [h1, h2, ih, mkVenvRecord]
      · simp [h1, h2, ih]
    · simp [h1, ih]

/-- Scanning with an age threshold yields exactly the unfiltered records
whose age strictly exceeds the threshold. -/
theorem scanList_filter (now : Int)
    (probe : List String → Option (List (String × String)))
    (d : Int) (l : List (List String × FSEntry)) :
    (scanList now probe (some d) l).1
      = ((scanList now probe none l).1).filter (fun v => decide (d < v.age_days)) := by
  induction l with
  | nil => simp [scanList]
  | cons pe rest ih =>
    obtain ⟨p, e⟩ := pe
    simp only [scanList]
    by_cases h2 : olderKeep (some d) (get_dir_age_days now e) = true
    · have hlt : d < get_dir_age_days now e := by simpa [olderKeep] using h2
      have hage : decide (d < (mkVenvRecord probe now p e).age_days) = true := by
        simpa [mkVenvRecord] using hlt
      by_cases h1 : (isDirE e && is_virtualenv e) = true
      · simp [h1, olderKeep, ih, List.filter_cons, hage, hlt]
      · simp [h1, ih]
    · have hnlt : ¬ (d < get_dir_age_days now e) := by simpa [olderKeep] using h2
      have hage : decide (d < (mkVenvRecord probe now p e).age_days) = false := by
        simpa [mkVenvRecord] using hnlt
      by_cases h1 : (isDirE e && is_virtualenv e) = true
      · simp [h1, olderKeep, ih, List.filter_cons, hage, hnlt]
      · simp [h1, ih]

/-- Claim C5: with an age filter, scan keeps exactly the candidates whose
age strictly exceeds the threshold (a candidate whose age equals the
threshold is excluded), and the health probe is invoked exactly on the
kept candidates, so excluded candidates are dropped unprobed. -/
theorem scan_age_filter_strict (now : Int)
    (probe : List String → Option (List (String × String)))
    (root : FSEntry) (d : Int) :
    scan_virtualenvs now probe root (some d)
      = (scan_virtualenvs now probe root none).filter (fun v => decide (d < v.age_days))
  ∧ (scan_virtualenvsI now probe root (some d)).2
      = (scan_virtualenvs now probe root (some d)).map (fun v => v.path) :=
  ⟨scanList_filter now probe d (rglobE [] root),
   scanList_probed now probe (some d) (rglobE [] root)⟩

/-- Every record built by the scan loop has `is_broken` equal to the
absence of its package list. -/
theorem scanList_broken (now : Int)
    (probe : List String → Option (List (String × String)))
    (older : Option Int) (l : List (List String × FSEntry)) :
    ∀ v ∈ (scanList now probe older l).1, v.is_broken = v.packages.isNone := by
  induction l with
  | nil => simp [scanList]
  | cons pe rest ih =>
    obtain ⟨p, e⟩ := pe
    simp only [scanList]
    by_cases h1 : (isDirE e && is_virtualenv e) = true
    · by_cases h2 : olderKeep older (get_dir_age_days now e) = true
      · simp only [h1, h2, if_true]
        intro v hv
        rcases List.mem_cons.mp hv with rfl | hv
        · rfl
        · exact ih v hv
      · simpa [h1, h2] using ih
    · simpa [h1] using ih

/-- Claim C10: every record produced by the scan is marked broken exactly
when its package list is absent. -/
theorem scan_is_broken_iff_no_packages (now : Int)
    (probe : List String → Option (List (String × String)))
    (root : FSEntry) (older : Option Int) :
    ∀ v ∈ scan_virtualenvs now probe root older, v.is_broken = v.packages.isNone :=
  scanList_broken now probe older (rglobE [] root)

/-- Claim C10 witness: the record scanned from the sample root. -/
theorem scan_is_broken_iff_no_packages_witness :
    VirtualEnv.is_broken ⟨["venv"], 0, 5, true, none⟩
      = Option.isNone (VirtualEnv.packages ⟨["venv"], 0, 5, true, none⟩) :=
  scan_is_broken_iff_no_packages (5 * 86400) (fun _ => none) rootW none
    ⟨["venv"], 0, 5, true, none⟩ (by decide)

/-- Claim C2 (amended): when the age threshold is set to a nonzero value,
the remove flag is not given, and the scan found at least one environment,
processing prints the dry-run note. -/
theorem dry_run_note_amended (now : Int)
    (probe : List String → Option (List (String × String)))
    (root : FSEntry) (args : Args) (d : Int)
    (h1 : args.older_than = some d) (h2 : d ≠ 0) (h3 : args.remove = false)
    (h4 : scan_virtualenvs now probe root args.older_than ≠ []) :
    OutMsg.dryRunNote ∈ (process_virtualenvs now probe root args).1 := by
  have h5 : (scan_virtualenvs now probe root args.older_than).isEmpty = false := by
    simpa [List.isEmpty_iff] using h4
  have hcond : (truthyOpt args.older_than && !args.remove) = true := by
    simp [h1, h3, truthyOpt, h2]
  simp [process_virtualenvs, h5, hcond]

/-- Claim C2 witness: threshold 1, no remove flag, sample root. -/
theorem dry_run_note_amended_witness :
    OutMsg.dryRunNote ∈ (process_virtualenvs (5 * 86400) (fun _ => none) rootW
      ⟨false, some 1, false, false⟩).1 :=
  dry_run_note_amended (5 * 86400) (fun _ => none) rootW ⟨false, some 1, false, false⟩ 1
    rfl (by decide) rfl (by decide)

/-- Claim C2 (counterexample to the claim as stated): with the threshold
set to `0` and no remove flag an environment is found and reported, yet no
dry-run note is printed (Python truthiness treats `0` as unset); likewise
no note appears when the threshold is nonzero but the scan finds
nothing. -/
theorem dry_run_note_counterexample :
    (OutMsg.dryRunNote ∉
        (process_virtualenvs (5 * 86400) (fun _ => none) rootW
          ⟨false, some 0, false, false⟩).1
      ∧ scan_virtualenvs (5 * 86400) (fun _ => none) rootW (some 0) ≠ [])
  ∧ OutMsg.dryRunNote ∉
      (process_virtualenvs (5 * 86400) (fun _ => none) (FSEntry.dir "empty" .nil)
        ⟨false, some 5, false, false⟩).1 := by decide

/-- Claim C1 (code bug): with `--older-than 1 --remove` and a healthy
environment of age 5 days selected by the scan, processing hands nothing
to the Remover and the environment's directory still exists afterwards —
the `remove` flag is never consulted for deletion. -/
theorem process_remove_flag_ignored :
    (scan_virtualenvs (5 * 86400) (fun _ => some [("pip", "25.0")]) rootW (some 1)).length = 1
  ∧ (process_virtualenvs (5 * 86400) (fun _ => some [("pip", "25.0")]) rootW
      ⟨false, some 1, true, false⟩).2.2 = []
  ∧ existsPathE (process_virtualenvs (5 * 86400) (fun _ => some [("pip", "25.0")]) rootW
      ⟨false, some 1, true, false⟩).2.1 ["venv"] = true := by decide

/-- The greedy packing loop never grows `start` beyond the budget when it
starts within the budget. -/
theorem packStart_length_le (avail : Int) (l : List String) (start : String)
    (h : (start.length : Int) ≤ avail) :
    ((packStart avail start l).length : Int) ≤ avail := by
  induction l generalizing start with
  | nil => simpa [packStart] using h
  | cons part rest ih =>
    simp only [packStart]
    by_cases hc : (((start ++ "/" ++ part).length : Int)) ≤ avail
    · rw [if_pos hc]
      exact ih _ hc
    · rw [if_neg hc]
      exact h

/-- Claim C3 (amended): a path within the limit is returned unchanged.  An
over-long path collapses to `.../last` exactly when the packing budget is
non-positive; otherwise the output carries the final two segments joined
verbatim as a suffix, and its length stays within the limit provided the
first path segment itself fits the budget — the source seeds the greedy
packing with the first segment unconditionally, so a first segment wider
than the budget is kept whole and may push the output past the limit. -/
theorem trim_path_amended (path_str : String) (max_length : Nat) :
    (path_str.length ≤ max_length → trim_path path_str max_length = path_str)
  ∧ (max_length < path_str.length →
      (trimAvail path_str max_length ≤ 0 →
          trim_path path_str max_length
            = "..." ++ "/" ++ (trimEndParts path_str).getLastD "")
      ∧ (0 < trimAvail path_str max_length →
          (∃ pre, trim_path path_str max_length
              = pre ++ "/" ++ "..." ++ "/" ++ pyJoin (trimEndParts path_str))
          ∧ ((((pySplit path_str).headD "").length : Int) ≤ trimAvail path_str max_length →
              (trim_path path_str max_length).length ≤ max_length))) := by
  constructor
  · intro h
    simp [trim_path, h]
  · intro h
    have hn : ¬ (path_str.length ≤ max_length) := by omega
    constructor
    · intro hfb
      simp only [trim_path]
      rw [if_neg hn, if_pos hfb]
    · intro hfb
      have hfb' : ¬ (trimAvail path_str max_length ≤ 0) := by omega
      constructor
      · refine ⟨packStart (trimAvail path_str max_length) ((pySplit path_str).headD "")
          (((pySplit path_str).drop 1).take ((pySplit path_str).length - 3)), ?_⟩
        simp only [trim_path]
        rw [if_neg hn, if_neg hfb']
      · intro hhead
        simp only [trim_path]
        rw [if_neg hn, if_neg hfb']
        have hp := packStart_length_le (trimAvail path_str max_length)
          (((pySplit path_str).drop 1).take ((pySplit path_str).length - 3))
          ((pySplit path_str).headD "") hhead
        have l1 : ("/" : String).length = 1 := rfl
        have l2 : ("..." : String).length = 3 := rfl
        have ha : trimAvail path_str max_length
            = (max_length : Int) - ((pyJoin (trimEndParts path_str)).length : Int) - 5 := rfl
        simp only [String.length_append, l1, l2]
        omega

/-- Claim C3 (counterexample to the claim as stated): a 26-character path
whose first segment is wider than the packing budget is trimmed to 30
characters, exceeding the limit 20, even though the documented fallback
case does not apply. -/
theorem trim_path_length_counterexample :
    20 < ("aaaaaaaaaaaaaaaaaaaaaa/b/c" : String).length
  ∧ 0 < trimAvail "aaaaaaaaaaaaaaaaaaaaaa/b/c" 20
  ∧ 20 < (trim_path "aaaaaaaaaaaaaaaaaaaaaa/b/c" 20).length := by decide

/-- Claim C3 witness: a short path is untouched, and an over-long path
whose first segment fits the budget is trimmed within the limit. -/
theorem trim_path_amended_witness :
    trim_path "a/b" 10 = "a/b"
  ∧ (trim_path "aa/bb/cc/dd/ee/ff/gggggg" 20).length ≤ 20 :=
  ⟨(trim_path_amended "a/b" 10).1 (by decide),
   (((trim_path_amended "aa/bb/cc/dd/ee/ff/gggggg" 20).2 (by decide)).2 (by decide)).2
     (by decide)⟩

end VenvManager
